import Mathlib

/-!
Shallow embedding of the pl-crud task manager (TypeScript + Supabase/Postgres).

The store is a single `tasks` table (schema in the repository README:
`id TEXT PRIMARY KEY`, `title TEXT`, `description TEXT`,
`due_date TIMESTAMP WITH TIME ZONE`, `priority TEXT`, `status TEXT`,
`created_at TIMESTAMP WITH TIME ZONE`).  We model the table as a
`List Task`, timestamps as `Int` (epoch milliseconds, the value of a
`Date`), and the text enum columns by their exact stored strings.

Store semantics modelled from Postgres/PostgREST:
* `ORDER BY` on a column orders rows by the column value; for the TEXT
  columns this is lexicographic string order.  Postgres does not specify
  the relative order of rows with equal keys, so we determinize with a
  stable sort (`List.insertionSort`).
* `ILIKE` is case-insensitive SQL `LIKE`: `%` matches any sequence,
  `_` any single character, the pattern must cover the whole string.
* A batch `INSERT` into a table with a primary key fails as a whole when
  any inserted id collides with an existing row or another inserted row.
-/

namespace PLCrud

/-- Priority enumeration from `src/lib/types.ts` (`"Low" | "Medium" | "High"`). -/
inductive Priority where
  | low
  | medium
  | high
deriving DecidableEq, Repr

/-- Text stored in the `priority` TEXT column for each `Priority` value. -/
def Priority.toText : Priority → String
  | .low => "Low"
  | .medium => "Medium"
  | .high => "High"

/-- Status enumeration from `src/lib/types.ts`
(`"Incomplete" | "In Progress" | "Completed"`). -/
inductive Status where
  | incomplete
  | inProgress
  | completed
deriving DecidableEq, Repr

/-- Text stored in the `status` TEXT column for each `Status` value. -/
def Status.toText : Status → String
  | .incomplete => "Incomplete"
  | .inProgress => "In Progress"
  | .completed => "Completed"

/-- The `Task` record from `src/lib/types.ts`.  The two timestamp fields are
modelled as `Int` epoch milliseconds (the time value of the stored
`TIMESTAMP WITH TIME ZONE`). -/
structure Task where
  id : String
  title : String
  description : String
  due_date : Int
  priority : Priority
  status : Status
  created_at : Int
deriving DecidableEq, Repr

/-- The `TaskStats` record from `src/lib/types.ts`. -/
structure TaskStats where
  totalTasks : Nat
  completedTasks : Nat
  dueSoonTasks : Nat
deriving DecidableEq, Repr

/-- Sort fields from `src/lib/types.ts` (`SortField`). -/
inductive SortField where
  | title
  | due_date
  | priority
  | status
  | created_at
deriving DecidableEq, Repr

/-- Sort directions from `src/lib/types.ts` (`SortDirection`). -/
inductive SortDirection where
  | asc
  | desc
deriving DecidableEq, Repr

/-- Filter structure accepted by `getFilteredTasks` (`src/lib/tasks.ts`).
The code reads `filters.search`, `filters.status`, `filters.priority`,
`filters.sortBy` and `filters.sortDirection`; each is optional. -/
structure TaskFilters where
  search : Option String := none
  status : Option Status := none
  priority : Option Priority := none
  sortBy : Option SortField := none
  sortDirection : Option SortDirection := none

/-! ### SQL LIKE / ILIKE -/

/-- SQL `LIKE` matching over character lists: `%` matches any sequence,
`_` matches any single character, any other pattern character matches
itself, and the pattern must cover the whole string. -/
def likeMatch : List Char → List Char → Bool
  | [], s => s.isEmpty
  | a :: p, s =>
    if a = '%' then s.tails.any (fun s2 => likeMatch p s2)
    else
      match s with
      | [] => false
      | c :: s2 => if a = '_' then likeMatch p s2 else a = c && likeMatch p s2

/-- Lowercase a string character by character, modelling the ASCII case
mapping shared by JavaScript `toLowerCase` and Postgres `lower` on the
strings this application stores. -/
def jsToLower (s : String) : String :=
  String.mk (s.data.map Char.toLower)

/-- Postgres `ILIKE`: case-insensitive `LIKE` (both sides lowered). -/
def ilikeMatch (pat s : String) : Bool :=
  likeMatch (jsToLower pat).data (jsToLower s).data

/-- The search clause `getFilteredTasks` builds in `src/lib/tasks.ts`
lines 100-103: the search text is lowercased and interpolated into
`title.ilike.%term%,description.ilike.%term%`, an OR of two ILIKE tests. -/
def searchMatches (search : String) (t : Task) : Bool :=
  let searchTerm := jsToLower search
  ilikeMatch ("%" ++ searchTerm ++ "%") t.title ||
    ilikeMatch ("%" ++ searchTerm ++ "%") t.description

/-! ### Store ORDER BY -/

/-- Column comparison performed by the store's `ORDER BY` for each sort
field (`query.order(filters.sortBy, ...)`, `src/lib/tasks.ts` line 118).
The TEXT columns `title`, `priority` and `status` compare
lexicographically by their stored strings; the timestamp columns
`due_date` and `created_at` compare chronologically. -/
def sortKeyLe : SortField → Task → Task → Prop
  | .title => fun a b => a.title.data ≤ b.title.data
  | .due_date => fun a b => a.due_date ≤ b.due_date
  | .priority => fun a b => a.priority.toText.data ≤ b.priority.toText.data
  | .status => fun a b => a.status.toText.data ≤ b.status.toText.data
  | .created_at => fun a b => a.created_at ≤ b.created_at

/-- Flipped column comparison, used for `sortDirection = "desc"`. -/
def sortKeyGe (f : SortField) (a b : Task) : Prop := sortKeyLe f b a

/-- Comparison for the default ordering `created_at` descending
(`src/lib/tasks.ts` lines 10 and 121). -/
def createdDescLe (a b : Task) : Prop := b.created_at ≤ a.created_at

instance sortKeyLe.instDecidableRel (f : SortField) : DecidableRel (sortKeyLe f) :=
  match f with
  | .title => fun a b => inferInstanceAs (Decidable (a.title.data ≤ b.title.data))
  | .due_date => fun a b => inferInstanceAs (Decidable (a.due_date ≤ b.due_date))
  | .priority => fun a b =>
      inferInstanceAs (Decidable (a.priority.toText.data ≤ b.priority.toText.data))
  | .status => fun a b =>
      inferInstanceAs (Decidable (a.status.toText.data ≤ b.status.toText.data))
  | .created_at => fun a b => inferInstanceAs (Decidable (a.created_at ≤ b.created_at))

instance sortKeyGe.instDecidableRel (f : SortField) : DecidableRel (sortKeyGe f) :=
  fun a b => sortKeyLe.instDecidableRel f b a

instance createdDescLe.instDecidableRel : DecidableRel createdDescLe :=
  fun a b => inferInstanceAs (Decidable (b.created_at ≤ a.created_at))

instance sortKeyLe.instIsTotal (f : SortField) : IsTotal Task (sortKeyLe f) := by
  constructor
  cases f <;> intro a b <;> exact le_total _ _

instance sortKeyLe.instIsTrans (f : SortField) : IsTrans Task (sortKeyLe f) := by
  constructor
  cases f <;> intro a b c hab hbc <;> exact le_trans hab hbc

instance sortKeyGe.instIsTotal (f : SortField) : IsTotal Task (sortKeyGe f) :=
  ⟨fun a b => (sortKeyLe.instIsTotal f).total b a⟩

instance sortKeyGe.instIsTrans (f : SortField) : IsTrans Task (sortKeyGe f) :=
  ⟨fun _ _ _ hab hbc => (sortKeyLe.instIsTrans f).trans _ _ _ hbc hab⟩

instance createdDescLe.instIsTotal : IsTotal Task createdDescLe :=
  ⟨fun a b => le_total b.created_at a.created_at⟩

instance createdDescLe.instIsTrans : IsTrans Task createdDescLe :=
  ⟨fun _ _ _ hab hbc => le_trans hbc hab⟩

/-! ### getFilteredTasks -/

/-- Filtering stage of `getFilteredTasks` (`src/lib/tasks.ts` lines
99-113): an optional search clause (skipped when `filters.search` is
absent or empty, since `if (filters.search)` is a JavaScript truthiness
test), then exact-match clauses on `status` and `priority`. -/
def applyFilters (filters : TaskFilters) (store : List Task) : List Task :=
  let q1 :=
    match filters.search with
    | some s => if s = "" then store else store.filter (fun t => searchMatches s t)
    | none => store
  let q2 :=
    match filters.status with
    | some st => q1.filter (fun t => t.status == st)
    | none => q1
  match filters.priority with
  | some p => q2.filter (fun t => t.priority == p)
  | none => q2

/-- Model of `getFilteredTasks` (`src/lib/tasks.ts` lines 95-132): apply the
filters, then order by `filters.sortBy` in the requested direction
(`desc` exactly when `sortDirection === 'desc'`), defaulting to
`created_at` descending when no sort field is given.  The store's
`ORDER BY` is modelled as a stable sort by the column comparison. -/
def getFilteredTasks (filters : TaskFilters) (store : List Task) : List Task :=
  match filters.sortBy with
  | some f =>
      if filters.sortDirection = some SortDirection.desc then
        List.insertionSort (sortKeyGe f) (applyFilters filters store)
      else
        List.insertionSort (sortKeyLe f) (applyFilters filters store)
  | none => List.insertionSort createdDescLe (applyFilters filters store)

/-! ### getTaskStats -/

/-- Milliseconds per day; `oneWeekFromNow.setDate(now.getDate() + 7)` in
`src/lib/tasks.ts` lines 143-145 advances the clock by seven days. -/
def msPerDay : Int := 86400000

/-- Model of `getTaskStats` (`src/lib/tasks.ts` lines 135-163) on the success
path: `now` is the call-time clock value, and `dueSoonTasks` counts the
tasks with `dueDate >= now && dueDate <= oneWeekFromNow` whose status is
not `"Completed"`. -/
def getTaskStats (store : List Task) (now : Int) : TaskStats :=
  let oneWeekFromNow := now + 7 * msPerDay
  { totalTasks := store.length
    completedTasks := (store.filter (fun t => t.status == Status.completed)).length
    dueSoonTasks := (store.filter (fun t =>
        (decide (now ≤ t.due_date) && decide (t.due_date ≤ oneWeekFromNow)) &&
          !(t.status == Status.completed))).length }

/-! ### Error handling at the data-access boundary

Errors are modelled as their message strings; a computation that can
throw lives in `Except String`.  `Except.error` is a thrown exception
escaping the function, `Except.ok` is a resolved return value. -/

/-- Model of `handleSupabaseError` (`src/lib/supabase.ts` lines 11-14): logs and
then `throw new Error(error.message || 'An error occurred with the
database')`.  It always throws, so any code after a call to it is dead. -/
def handleSupabaseError (msg : String) : Except String Unit :=
  Except.error (if msg = "" then "An error occurred with the database" else msg)

/-- Model of `getTasks` (`src/lib/tasks.ts` lines 5-18), parameterized by the
store's response to `select * order by created_at desc`.  On a store
error the catch block runs `handleSupabaseError(error)` before
`return []`; the `pure []` below is that dead return. -/
def getTasks (resp : Except String (List Task)) : Except String (List Task) :=
  match resp with
  | Except.ok data => Except.ok (List.insertionSort createdDescLe data)
  | Except.error e => do
      let _ ← handleSupabaseError e
      pure []

/-- Model of `deleteTask` (`src/lib/tasks.ts` lines 79-92), parameterized by the
store error (if any) of the delete statement.  On success it returns the
new store contents and `true`; on a store error the catch block runs
`handleSupabaseError(error)` before the dead `return false`. -/
def deleteTask (id : String) (store : List Task) (storeErr : Option String) :
    Except String (List Task × Bool) :=
  match storeErr with
  | some e => do
      let _ ← handleSupabaseError e
      pure (store, false)
  | none => Except.ok (store.filter (fun t => !(t.id == id)), true)

/-! ### Import / export -/

/-- Batch `INSERT` into the `tasks` table (`id TEXT PRIMARY KEY`): the
whole statement fails when an inserted id collides with an existing row
or with another inserted row, otherwise the rows are appended. -/
def insertRows (rows : List Task) (store : List Task) : Except String (List Task) :=
  if rows.any (fun r => store.any (fun t => t.id == r.id)) ||
      !decide (rows.map (fun r => r.id)).Nodup then
    Except.error "duplicate key value violates unique constraint"
  else
    Except.ok (store ++ rows)

/-- JSON documents this application reads and writes. -/
inductive Json where
  | str (s : String)
  | num (n : Int)
  | arr (xs : List Json)
  | obj (fields : List (String × Json))

/-- Look a key up in a JSON object's field list. -/
def jsonField (fields : List (String × Json)) (k : String) : Option Json :=
  (fields.find? (fun kv => kv.fst == k)).map Prod.snd

/-- Read a JSON string. -/
def asStr : Json → Option String
  | Json.str s => some s
  | _ => none

/-- Read a JSON number as a timestamp value. -/
def asNum : Json → Option Int
  | Json.num n => some n
  | _ => none

/-- Read a stored priority string. -/
def decodePriority : Json → Option Priority
  | Json.str "Low" => some Priority.low
  | Json.str "Medium" => some Priority.medium
  | Json.str "High" => some Priority.high
  | _ => none

/-- Read a stored status string. -/
def decodeStatus : Json → Option Status
  | Json.str "Incomplete" => some Status.incomplete
  | Json.str "In Progress" => some Status.inProgress
  | Json.str "Completed" => some Status.completed
  | _ => none

/-- Serialize one task record the way `JSON.stringify` renders a row of
the `tasks` table: an object with the six stored fields. -/
def encodeTask (t : Task) : Json :=
  Json.obj
    [("id", Json.str t.id),
     ("title", Json.str t.title),
     ("description", Json.str t.description),
     ("due_date", Json.num t.due_date),
     ("priority", Json.str t.priority.toText),
     ("status", Json.str t.status.toText),
     ("created_at", Json.num t.created_at)]

/-- Read one task record back from its JSON object. -/
def decodeTask (j : Json) : Option Task :=
  match j with
  | Json.obj fs => do
      let id ← (jsonField fs "id").bind asStr
      let title ← (jsonField fs "title").bind asStr
      let description ← (jsonField fs "description").bind asStr
      let due_date ← (jsonField fs "due_date").bind asNum
      let priority ← (jsonField fs "priority").bind decodePriority
      let status ← (jsonField fs "status").bind decodeStatus
      let created_at ← (jsonField fs "created_at").bind asNum
      pure { id := id, title := title, description := description,
             due_date := due_date, priority := priority, status := status,
             created_at := created_at }
  | _ => none

/-- Read a task collection back from its JSON array. -/
def decodeTasks (j : Json) : Option (List Task) :=
  match j with
  | Json.arr xs => xs.mapM decodeTask
  | _ => none

/-- Model of `exportTasksToJSON` (`src/lib/tasks.ts` lines 166-178) on the
success path: `JSON.stringify` of all rows of the table.  The result is
modelled as the JSON document tree rather than its printed text; the
pretty-printing is cosmetic. -/
def exportTasksToJSON (store : List Task) : Json :=
  Json.arr (store.map encodeTask)

/-- Model of `importTasksFromJSON` (`src/lib/tasks.ts` lines 181-207),
parameterized by the result of `JSON.parse(jsonData) as Task[]`
(`Except.error` when `JSON.parse` throws on unparseable input).  On the
parse result it deletes every row with `id <> 'dummy'`
(`.neq('id', 'dummy')`), then batch-inserts the parsed tasks when there
are any.  The function returns the final store contents together with
its outcome; any caught error reaches `handleSupabaseError`, which
rethrows, making the final `return false` dead. -/
def importTasksFromJSON (parsed : Except String (List Task)) (store : List Task) :
    List Task × Except String Bool :=
  match parsed with
  | Except.error e =>
      (store, do
        let _ ← handleSupabaseError e
        pure false)
  | Except.ok tasks =>
      let afterDelete := store.filter (fun t => t.id == "dummy")
      if tasks.length > 0 then
        match insertRows tasks afterDelete with
        | Except.ok newStore => (newStore, Except.ok true)
        | Except.error e =>
            (afterDelete, do
              let _ ← handleSupabaseError e
              pure false)
      else
        (afterDelete, Except.ok true)

/-- Parse the text of an exported document back into tasks:
`JSON.parse(JSON.stringify(doc))` returns a tree structurally identical
to `doc`, and the untyped `as Task[]` view of that tree is read with
`decodeTasks`.  A tree that is not an array of well-formed task objects
never arises from `exportTasksToJSON` (proved below), so the error
branch is unreachable on exported documents. -/
def parseTasksDoc (doc : Json) : Except String (List Task) :=
  match decodeTasks doc with
  | some ts => Except.ok ts
  | none => Except.error "Unexpected token"

/-- Export the whole collection and feed the resulting document straight
back to import, as in the round-trip scenario of the specification. -/
def roundTrip (store : List Task) : List Task × Except String Bool :=
  importTasksFromJSON (parseTasksDoc (exportTasksToJSON store)) store

/-! ### Server actions (`src/app/actions.ts`) -/

/-- Model of `deleteAllTasks` (`src/app/actions.ts` lines 130-147), parameterized
by the store error (if any) of the delete statement.  The delete uses
`.neq("id", "dummy")`, so only rows whose id differs from `"dummy"` are
removed; the catch block here returns `{ success: false }` itself. -/
def deleteAllTasks (store : List Task) (storeErr : Option String) : List Task × Bool :=
  match storeErr with
  | some _ => (store, false)
  | none => (store.filter (fun t => t.id == "dummy"), true)

/-- Form data received by the `addTask` / `editTask` server actions:
`formData.get(...)` yields `null` for an absent field. -/
structure TaskFormData where
  title : Option String
  description : Option String
  due_date : Option String
  priority : Option String
  status : Option String

/-- JavaScript falsiness of a `formData.get` result cast `as string`:
`null` and the empty string are falsy. -/
def falsyStr : Option String → Bool
  | none => true
  | some s => s = ""

/-- Outcome of the `addTask` server action. -/
inductive AddTaskResult where
  | missingFields
  | created (t : Task)
  | createFailed
deriving DecidableEq, Repr

/-- Model of `addTask` (`src/app/actions.ts` lines 29-59), parameterized by the
behavior of `createTask` (which may mutate the store and either return
the created task or throw).  When `!title || !due_date || !priority ||
!status`, the action returns `{ error: "Missing required fields" }`
without touching the store; otherwise it runs `createTask` and maps a
thrown error to `{ error: "Failed to create task" }`. -/
def addTask (fd : TaskFormData) (store : List Task)
    (createTask : TaskFormData → List Task → List Task × Except String Task) :
    List Task × AddTaskResult :=
  if falsyStr fd.title || falsyStr fd.due_date || falsyStr fd.priority ||
      falsyStr fd.status then
    (store, AddTaskResult.missingFields)
  else
    match createTask fd store with
    | (store2, Except.ok t) => (store2, AddTaskResult.created t)
    | (store2, Except.error _) => (store2, AddTaskResult.createFailed)

/-- Outcome of the `editTask` server action: `success: !!updatedTask`. -/
inductive EditTaskResult where
  | missingFields
  | updated (t : Option Task)
  | updateFailed
deriving DecidableEq, Repr

/-- Model of `editTask` (`src/app/actions.ts` lines 68-98), parameterized by the
behavior of `updateTask` (which may mutate the store and returns the
updated task, `null`, or throws).  The validation mirrors `addTask`. -/
def editTask (id : String) (fd : TaskFormData) (store : List Task)
    (updateTask : String → TaskFormData → List Task →
      List Task × Except String (Option Task)) :
    List Task × EditTaskResult :=
  if falsyStr fd.title || falsyStr fd.due_date || falsyStr fd.priority ||
      falsyStr fd.status then
    (store, EditTaskResult.missingFields)
  else
    match updateTask id fd store with
    | (store2, Except.ok t) => (store2, EditTaskResult.updated t)
    | (store2, Except.error _) => (store2, EditTaskResult.updateFailed)

/-! ### Specification-side predicates

These definitions follow the wording of the specification, not the code;
the theorems below compare the code's behavior against them. -/

/-- Priority rank stated by the specification: Low < Medium < High. -/
def priorityRank : Priority → Nat
  | .low => 0
  | .medium => 1
  | .high => 2

/-- Status rank stated by the specification:
Incomplete < In Progress < Completed. -/
def statusRank : Status → Nat
  | .incomplete => 0
  | .inProgress => 1
  | .completed => 2

/-- Case-insensitive substring relation, as the specification describes
search matching. -/
def isCiSubstring (needle hay : String) : Prop :=
  (jsToLower needle).data <:+: (jsToLower hay).data

/-- Search matching as the specification states it: the search string is
a case-insensitive substring of the title or of the description. -/
def searchMatchesSpec (search : String) (t : Task) : Prop :=
  isCiSubstring search t.title ∨ isCiSubstring search t.description

/-- Due-soon predicate as the specification states it: due date within
`[now, now + 7 days]` inclusive and status not Completed. -/
def dueSoonSpec (now : Int) (t : Task) : Prop :=
  now ≤ t.due_date ∧ t.due_date ≤ now + 7 * msPerDay ∧ t.status ≠ Status.completed

/-- Tasks that compare equal on a sort column (a tie for that column). -/
def sortKeyTie (f : SortField) (a b : Task) : Prop :=
  sortKeyLe f a b ∧ sortKeyLe f b a

/-- Strict column comparison derived from `sortKeyLe`. -/
def sortKeyLt (f : SortField) (a b : Task) : Prop :=
  sortKeyLe f a b ∧ ¬ sortKeyLe f b a

instance isCiSubstring.instDecidable (needle hay : String) :
    Decidable (isCiSubstring needle hay) :=
  inferInstanceAs (Decidable ((jsToLower needle).data <:+: (jsToLower hay).data))

instance searchMatchesSpec.instDecidable (search : String) (t : Task) :
    Decidable (searchMatchesSpec search t) :=
  inferInstanceAs
    (Decidable (isCiSubstring search t.title ∨ isCiSubstring search t.description))

instance dueSoonSpec.instDecidable (now : Int) (t : Task) :
    Decidable (dueSoonSpec now t) :=
  inferInstanceAs
    (Decidable (now ≤ t.due_date ∧ t.due_date ≤ now + 7 * msPerDay ∧
      t.status ≠ Status.completed))

instance sortKeyTie.instDecidable (f : SortField) (a b : Task) :
    Decidable (sortKeyTie f a b) :=
  inferInstanceAs (Decidable (sortKeyLe f a b ∧ sortKeyLe f b a))

instance sortKeyLt.instDecidable (f : SortField) (a b : Task) :
    Decidable (sortKeyLt f a b) :=
  inferInstanceAs (Decidable (sortKeyLe f a b ∧ ¬ sortKeyLe f b a))

/-! ### Concrete records used in the closed evaluations -/

/-- Base sample task. -/
def sampleTask : Task :=
  { id := "1", title := "Alpha", description := "", due_date := 0,
    priority := Priority.low, status := Status.incomplete, created_at := 0 }

/-- Task whose id is the `"dummy"` sentinel that the delete-all statement
`.neq('id', 'dummy')` spares.  Such a row is reachable: import inserts
records with whatever ids the JSON document carries. -/
def dummyTask : Task := { sampleTask with id := "dummy" }

/-- Second sample task with a distinct id and title. -/
def bravoTask : Task := { sampleTask with id := "2", title := "Bravo" }

/-- High-priority variant of the sample task. -/
def highTask : Task := { sampleTask with id := "2", priority := Priority.high }

/-- Completed variant of the sample task. -/
def completedTask : Task := { sampleTask with id := "2", status := Status.completed }

/-- Task sharing `sampleTask`'s title but with a different id. -/
def alphaTwinTask : Task := { sampleTask with id := "2" }

/-- Task whose title contains the letters `a` and `b` with padding, used
against the wildcard search string `"a%b"`. -/
def wildTask : Task := { sampleTask with id := "3", title := "axxb" }

/-- Filters requesting an ascending sort by priority. -/
def prioAscFilters : TaskFilters :=
  { sortBy := some SortField.priority, sortDirection := some SortDirection.asc }

/-- Filters requesting an ascending sort by status. -/
def statusAscFilters : TaskFilters :=
  { sortBy := some SortField.status, sortDirection := some SortDirection.asc }

/-- Filters requesting an ascending sort by title. -/
def titleAscFilters : TaskFilters :=
  { sortBy := some SortField.title, sortDirection := some SortDirection.asc }

/-- Filters requesting a descending sort by title. -/
def titleDescFilters : TaskFilters :=
  { sortBy := some SortField.title, sortDirection := some SortDirection.desc }

/-- Filters with no sort field at all. -/
def noSortFilters : TaskFilters := {}

/-- Copy of a filter set, requesting an ascending sort by `f`. -/
def ascFilters (f : SortField) (filters : TaskFilters) : TaskFilters :=
  { filters with sortBy := some f, sortDirection := some SortDirection.asc }

/-- Copy of a filter set, requesting a descending sort by `f`. -/
def descFilters (f : SortField) (filters : TaskFilters) : TaskFilters :=
  { filters with sortBy := some f, sortDirection := some SortDirection.desc }

/-- Form submission with `due_date` absent. -/
def sampleFormData : TaskFormData :=
  { title := some "T", description := none, due_date := none,
    priority := some "High", status := some "Incomplete" }

/-- Possible `createTask` behavior: the store rejects the insert. -/
def sampleCreate : TaskFormData → List Task → List Task × Except String Task :=
  fun _ store => (store, Except.error "insert failed")

/-- Possible `updateTask` behavior: no row matches, `null` comes back. -/
def sampleUpdate :
    String → TaskFormData → List Task → List Task × Except String (Option Task) :=
  fun _ _ store => (store, Except.ok none)

/-! ## Supporting lemmas -/

/-- Value of `Char.ofNat` on valid codepoints. -/
theorem char_toNat_ofNat (n : Nat) (h : n.isValidChar) : (Char.ofNat n).toNat = n := by
  simp [Char.ofNat, h, Char.ofNatAux, Char.toNat, UInt32.toNat, BitVec.toNat_ofNatLt]

/-- Behavior of `Char.toLower`: an uppercase ASCII letter shifts its
codepoint by 32, any other character is unchanged. -/
theorem toLower_shift (c : Char) :
    (65 ≤ c.toNat ∧ c.toNat ≤ 90 ∧ (Char.toLower c).toNat = c.toNat + 32) ∨
      Char.toLower c = c := by
  unfold Char.toLower
  by_cases h : c.toNat ≥ 65 ∧ c.toNat ≤ 90
  · left
    have hv : (c.toNat + 32).isValidChar := Or.inl (by omega)
    refine ⟨h.1, h.2, ?_⟩
    simp only [h, and_self, if_true]
    exact char_toNat_ofNat _ hv
  · right
    simp [h]

/-- Lowercasing never produces the SQL wildcard characters. -/
theorem toLower_ne_wild {c : Char} (h : c ≠ '%' ∧ c ≠ '_') :
    Char.toLower c ≠ '%' ∧ Char.toLower c ≠ '_' := by
  rcases toLower_shift c with ⟨h1, _, h3⟩ | he
  · have h37 : ('%' : Char).toNat = 37 := by decide
    have h95 : ('_' : Char).toNat = 95 := by decide
    constructor
    · intro hc; rw [hc] at h3; omega
    · intro hc; rw [hc] at h3; omega
  · rw [he]; exact h

/-- Lowercasing is idempotent. -/
theorem toLower_idem (c : Char) :
    Char.toLower (Char.toLower c) = Char.toLower c := by
  rcases toLower_shift c with ⟨h1, _, h3⟩ | he
  · rcases toLower_shift (Char.toLower c) with ⟨h4, h5, _⟩ | he2
    · omega
    · exact he2
  · rw [he, he]

/-- Unfolding `likeMatch` at a leading `%`: some suffix of the string
must match the rest of the pattern. -/
theorem likeMatch_pct (p : List Char) (s : List Char) :
    likeMatch ('%' :: p) s = true ↔ ∃ s2, s2 <:+ s ∧ likeMatch p s2 = true := by
  simp [likeMatch, List.any_eq_true, List.mem_tails]

/-- Wildcard-free pattern followed by `%`: recognizes exactly the
strings it prefixes. -/
theorem likeMatch_plain_pct (p : List Char) (hp : ∀ c ∈ p, c ≠ '%' ∧ c ≠ '_') :
    ∀ s : List Char, (likeMatch (p ++ ['%']) s = true ↔ p <+: s) := by
  induction p with
  | nil =>
      intro s
      constructor
      · intro _
        exact ⟨s, rfl⟩
      · intro _
        have : likeMatch ('%' :: ([] : List Char)) s = true := by
          rw [likeMatch_pct]
          exact ⟨[], List.nil_suffix, rfl⟩
        simpa using this
  | cons a p ih =>
      intro s
      have ha := hp a (List.mem_cons_self a p)
      have hp2 : ∀ c ∈ p, c ≠ '%' ∧ c ≠ '_' :=
        fun c hc => hp c (List.mem_cons_of_mem a hc)
      cases s with
      | nil =>
          simp [likeMatch, ha.1]
      | cons c s2 =>
          rw [List.cons_append]
          show (if a = '%' then _ else _) = true ↔ _
          rw [if_neg ha.1]
          show (if a = '_' then _ else (decide (a = c) && likeMatch (p ++ ['%']) s2)) = true ↔ _
          rw [if_neg ha.2, List.cons_prefix_cons]
          simp [ih hp2]

/-- SQL pattern `%p%` with wildcard-free `p` matches exactly the strings
containing `p` as a contiguous run. -/
theorem likeMatch_wrap (p : List Char) (hp : ∀ c ∈ p, c ≠ '%' ∧ c ≠ '_')
    (s : List Char) :
    likeMatch ('%' :: (p ++ ['%'])) s = true ↔ p <:+: s := by
  rw [likeMatch_pct, List.infix_iff_prefix_suffix]
  constructor
  · rintro ⟨s2, hsuf, hm⟩
    exact ⟨s2, (likeMatch_plain_pct p hp s2).mp hm, hsuf⟩
  · rintro ⟨t, hpre, hsuf⟩
    exact ⟨t, hsuf, (likeMatch_plain_pct p hp t).mpr hpre⟩

/-- Character data of a lowered string. -/
theorem data_jsToLower (s : String) :
    (jsToLower s).data = s.data.map Char.toLower := rfl

/-- Character data of the ILIKE pattern built around a search term. -/
theorem searchPattern_data (search : String) :
    (jsToLower ("%" ++ jsToLower search ++ "%")).data
      = '%' :: ((jsToLower search).data ++ ['%']) := by
  have hcomp : Char.toLower ∘ Char.toLower = Char.toLower := funext toLower_idem
  have hpct : Char.toLower '%' = '%' := by decide
  show ('%' :: (search.data.map Char.toLower ++ ['%'])).map Char.toLower
      = '%' :: (search.data.map Char.toLower ++ ['%'])
  simp [List.map_append, List.map_map, hcomp, hpct]

/-- Lowering a wildcard-free string keeps it wildcard-free. -/
theorem jsToLower_plain {search : String}
    (h : ∀ c ∈ search.data, c ≠ '%' ∧ c ≠ '_') :
    ∀ c ∈ (jsToLower search).data, c ≠ '%' ∧ c ≠ '_' := by
  intro c hc
  rw [data_jsToLower] at hc
  rcases List.mem_map.mp hc with ⟨a, ha, rfl⟩
  exact toLower_ne_wild (h a ha)

/-- Unfolding of `getFilteredTasks` when a sort field is requested in
ascending direction. -/
theorem getFilteredTasks_asc (filters : TaskFilters) (store : List Task)
    (f : SortField) (hF : filters.sortBy = some f)
    (hD : filters.sortDirection ≠ some SortDirection.desc) :
    getFilteredTasks filters store
      = List.insertionSort (sortKeyLe f) (applyFilters filters store) := by
  simp only [getFilteredTasks, hF]
  rw [if_neg hD]

/-- Unfolding of `getFilteredTasks` when a sort field is requested in
descending direction. -/
theorem getFilteredTasks_desc (filters : TaskFilters) (store : List Task)
    (f : SortField) (hF : filters.sortBy = some f)
    (hD : filters.sortDirection = some SortDirection.desc) :
    getFilteredTasks filters store
      = List.insertionSort (sortKeyGe f) (applyFilters filters store) := by
  simp only [getFilteredTasks, hF]
  rw [if_pos hD]

/-- Unfolding of `getFilteredTasks` when no sort field is requested. -/
theorem getFilteredTasks_noSort (filters : TaskFilters) (store : List Task)
    (hF : filters.sortBy = none) :
    getFilteredTasks filters store
      = List.insertionSort createdDescLe (applyFilters filters store) := by
  simp only [getFilteredTasks, hF]

/-- Decoding inverts encoding on a single task record. -/
theorem decodeTask_encodeTask (t : Task) : decodeTask (encodeTask t) = some t := by
  cases t with
  | mk id title description due_date priority status created_at =>
      cases priority <;> cases status <;> rfl

/-- Decoding inverts encoding on a whole exported collection: every
field of every record survives serialization. -/
theorem decodeTasks_export (store : List Task) :
    decodeTasks (exportTasksToJSON store) = some store := by
  induction store with
  | nil => rfl
  | cons t ts ih =>
      have ih2 : (ts.map encodeTask).mapM decodeTask = some ts := ih
      show ((t :: ts).map encodeTask).mapM decodeTask = some (t :: ts)
      rw [List.map_cons, List.mapM_cons, decodeTask_encodeTask, ih2]
      rfl

/-! ## Claims -/

/-- C1, counterexample: exporting the collection `[dummyTask, bravoTask]`
and importing the result does not restore it.  The import's delete step
`.neq('id', 'dummy')` spares the `"dummy"` row, so re-inserting the
exported rows hits the `id` primary key and fails, leaving only
`[dummyTask]`: the round trip loses `bravoTask`. -/
theorem roundTrip_loses_record_with_dummy_id :
    roundTrip [dummyTask, bravoTask]
        = ([dummyTask], Except.error "duplicate key value violates unique constraint") ∧
      ([dummyTask] : List Task) ≠ [dummyTask, bravoTask] :=
  ⟨rfl, by decide⟩

/-- C1 (amended): for every stored collection whose ids are unique and
contain no `"dummy"`, exporting with `exportTasksToJSON` and importing
the result with `importTasksFromJSON` succeeds and restores exactly the
same records, every field — `id` and `created_at` included —
unchanged. -/
theorem roundTrip_id_of_no_dummy (store : List Task)
    (h1 : ∀ t ∈ store, t.id ≠ "dummy")
    (h2 : (store.map (fun t => t.id)).Nodup) :
    roundTrip store = (store, Except.ok true) := by
  have hdoc : parseTasksDoc (exportTasksToJSON store) = Except.ok store := by
    unfold parseTasksDoc
    rw [decodeTasks_export]
  show importTasksFromJSON (parseTasksDoc (exportTasksToJSON store)) store
      = (store, Except.ok true)
  rw [hdoc]
  have hdel : store.filter (fun t => t.id == "dummy") = [] := by
    rw [List.filter_eq_nil_iff]
    intro t ht
    simpa using h1 t ht
  simp only [importTasksFromJSON, hdel]
  cases store with
  | nil => rfl
  | cons t ts =>
      have hins : insertRows (t :: ts) [] = Except.ok (t :: ts) := by
        have hnd : decide (((t :: ts).map (fun r => r.id)).Nodup) = true :=
          decide_eq_true h2
        have hcond : (((t :: ts).any (fun r => ([] : List Task).any (fun u => u.id == r.id))) ||
            !decide (((t :: ts).map (fun r => r.id)).Nodup)) = false := by
          rw [hnd]
          simp
        unfold insertRows
        rw [if_neg (by rw [Bool.not_eq_true]; exact hcond)]
        simp
      simp [hins]

/-- C1, witness for the amended claim at a concrete two-task store. -/
theorem roundTrip_id_of_no_dummy_witness :
    roundTrip [sampleTask, bravoTask] = ([sampleTask, bravoTask], Except.ok true) :=
  roundTrip_id_of_no_dummy [sampleTask, bravoTask] (by decide) (by decide)

/-- C2, counterexample: with the ascending priority sort, the store
orders the TEXT column lexicographically, so `highTask` (priority text
`"High"`) sorts before `sampleTask` (priority text `"Low"`), violating
the claimed rank order Low < Medium < High; likewise the ascending
status sort places `"Completed"` before `"Incomplete"`, violating the
claimed rank order Incomplete < In Progress < Completed. -/
theorem sort_rank_counterexample :
    getFilteredTasks prioAscFilters [sampleTask, highTask] = [highTask, sampleTask] ∧
      ¬ (getFilteredTasks prioAscFilters [sampleTask, highTask]).Pairwise
          (fun a b => priorityRank a.priority ≤ priorityRank b.priority) ∧
      getFilteredTasks statusAscFilters [sampleTask, completedTask]
          = [completedTask, sampleTask] ∧
      ¬ (getFilteredTasks statusAscFilters [sampleTask, completedTask]).Pairwise
          (fun a b => statusRank a.status ≤ statusRank b.status) := by
  decide

/-- C2 (amended): sorting by priority or status orders tasks by
lexicographic comparison of the stored column text (so ascending
priority yields "High" < "Low" < "Medium" and ascending status yields
"Completed" < "In Progress" < "Incomplete"), not by the semantic
ranks. -/
theorem sort_text_order (filters : TaskFilters) (store : List Task) :
    (filters.sortBy = some SortField.priority →
        filters.sortDirection ≠ some SortDirection.desc →
        (getFilteredTasks filters store).Sorted
          (fun a b => a.priority.toText.data ≤ b.priority.toText.data)) ∧
      (filters.sortBy = some SortField.status →
        filters.sortDirection ≠ some SortDirection.desc →
        (getFilteredTasks filters store).Sorted
          (fun a b => a.status.toText.data ≤ b.status.toText.data)) := by
  constructor
  · intro hF hD
    rw [getFilteredTasks_asc filters store SortField.priority hF hD]
    exact List.sorted_insertionSort (sortKeyLe SortField.priority) _
  · intro hF hD
    rw [getFilteredTasks_asc filters store SortField.status hF hD]
    exact List.sorted_insertionSort (sortKeyLe SortField.status) _

/-- C2, witness for the amended claim at a concrete store. -/
theorem sort_text_order_witness :
    (getFilteredTasks prioAscFilters [sampleTask, highTask]).Sorted
        (fun a b => a.priority.toText.data ≤ b.priority.toText.data) :=
  (sort_text_order prioAscFilters [sampleTask, highTask]).1 rfl (by decide)

/-- C3: the claim says store-level errors are converted into failure
results (`[]` / `false`) instead of propagating as exceptions, and the
function comments and trailing `return` statements in `src/lib/tasks.ts`
say the same — but `handleSupabaseError` rethrows, so those returns are
dead and the data-access operations propagate the exception: on a store
error both `getTasks` and `deleteTask` evaluate to the thrown error
instead of resolving with `[]` or `false`. -/
theorem store_errors_propagate_as_exceptions :
    getTasks (Except.error "connection refused") = Except.error "connection refused" ∧
      deleteTask "1" [sampleTask] (some "connection refused")
          = Except.error "connection refused" :=
  ⟨rfl, rfl⟩

/-- C4: delete-all runs `.neq("id", "dummy")`, so a stored record whose
id is `"dummy"` survives a "successful" delete-all and the collection is
not left empty, contradicting the claim and the code's own comment
("This ensures we delete all tasks"); on an already-empty collection
delete-all does succeed and the collection stays empty. -/
theorem deleteAllTasks_spares_dummy_id :
    deleteAllTasks [dummyTask] none = ([dummyTask], true) ∧
      ((deleteAllTasks [dummyTask] none).1).length = 1 ∧
      deleteAllTasks [] none = ([], true) :=
  ⟨rfl, rfl, rfl⟩

/-- C5: for every task set and evaluation time `now`, `getTaskStats`
reports as due-soon exactly the tasks whose due date lies within
`[now, now + 7 days]` inclusive and whose status is not Completed; in
particular a Completed task never satisfies the due-soon predicate, even
inside the window. -/
theorem getTaskStats_dueSoon_spec (store : List Task) (now : Int) :
    (getTaskStats store now).dueSoonTasks
        = (store.filter (fun t => decide (dueSoonSpec now t))).length ∧
      ∀ t : Task, t.status = Status.completed → ¬ dueSoonSpec now t := by
  constructor
  · show (store.filter (fun t =>
        (decide (now ≤ t.due_date) && decide (t.due_date ≤ now + 7 * msPerDay)) &&
          !(t.status == Status.completed))).length
      = (store.filter (fun t => decide (dueSoonSpec now t))).length
    apply congrArg List.length
    apply List.filter_congr
    intro t _
    by_cases h1 : now ≤ t.due_date <;>
      by_cases h2 : t.due_date ≤ now + 7 * msPerDay <;>
        by_cases h3 : t.status = Status.completed <;>
          simp [dueSoonSpec, h1, h2, h3]
  · intro t h hsp
    exact hsp.2.2 h

/-- C6: whenever `title`, `due_date`, `priority` or `status` is absent
from the submitted form, `addTask` and `editTask` answer with the
"Missing required fields" validation error and the store is unchanged,
whatever the downstream create/update operations would have done. -/
theorem missing_required_field_rejected (fd : TaskFormData) (store : List Task)
    (id : String)
    (createTask : TaskFormData → List Task → List Task × Except String Task)
    (updateTask : String → TaskFormData → List Task →
      List Task × Except String (Option Task))
    (h : fd.title = none ∨ fd.due_date = none ∨ fd.priority = none ∨
      fd.status = none) :
    addTask fd store createTask = (store, AddTaskResult.missingFields) ∧
      editTask id fd store updateTask = (store, EditTaskResult.missingFields) := by
  have hcond : (falsyStr fd.title || falsyStr fd.due_date || falsyStr fd.priority ||
      falsyStr fd.status) = true := by
    rcases h with h | h | h | h <;> simp [h, falsyStr]
  constructor
  · unfold addTask
    rw [if_pos hcond]
  · unfold editTask
    rw [if_pos hcond]

/-- C6, witness: a form with `due_date` absent at a concrete store. -/
theorem missing_required_field_rejected_witness :
    addTask sampleFormData [sampleTask] sampleCreate
        = ([sampleTask], AddTaskResult.missingFields) ∧
      editTask "1" sampleFormData [sampleTask] sampleUpdate
        = ([sampleTask], EditTaskResult.missingFields) :=
  missing_required_field_rejected sampleFormData [sampleTask] "1" sampleCreate
    sampleUpdate (Or.inr (Or.inl rfl))

/-- C7, counterexample: two distinct tasks sharing the same title are a
tie for the title sort; the stable sort returns them in store order for
both directions, so the ascending list is not the reverse of the
descending list. -/
theorem asc_desc_not_exact_reverse_on_tie :
    getFilteredTasks titleAscFilters [sampleTask, alphaTwinTask]
        = [sampleTask, alphaTwinTask] ∧
      getFilteredTasks titleDescFilters [sampleTask, alphaTwinTask]
        = [sampleTask, alphaTwinTask] ∧
      getFilteredTasks titleAscFilters [sampleTask, alphaTwinTask]
        ≠ (getFilteredTasks titleDescFilters [sampleTask, alphaTwinTask]).reverse := by
  decide

/-- C7 (amended): when no two of the filtered tasks tie on the sort
column, the ascending result is the exact reverse of the descending
result for the same filters and store. -/
theorem asc_reverse_desc_of_no_tie (f : SortField) (filters : TaskFilters)
    (store : List Task)
    (htf : (applyFilters filters store).Pairwise (fun a b => ¬ sortKeyTie f a b)) :
    getFilteredTasks (ascFilters f filters) store
      = (getFilteredTasks (descFilters f filters) store).reverse := by
  have e1 : getFilteredTasks (ascFilters f filters) store
      = List.insertionSort (sortKeyLe f) (applyFilters filters store) := rfl
  have e2 : getFilteredTasks (descFilters f filters) store
      = List.insertionSort (sortKeyGe f) (applyFilters filters store) := rfl
  rw [e1, e2]
  have sortedA := List.sorted_insertionSort (sortKeyLe f) (applyFilters filters store)
  have sortedD := List.sorted_insertionSort (sortKeyGe f) (applyFilters filters store)
  have permA := List.perm_insertionSort (sortKeyLe f) (applyFilters filters store)
  have permD := List.perm_insertionSort (sortKeyGe f) (applyFilters filters store)
  have permRev :
      List.Perm
        ((List.insertionSort (sortKeyGe f) (applyFilters filters store)).reverse)
        (applyFilters filters store) :=
    (List.reverse_perm _).trans permD
  have sortedRev :
      ((List.insertionSort (sortKeyGe f) (applyFilters filters store)).reverse).Pairwise
        (sortKeyLe f) := by
    rw [List.pairwise_reverse]
    exact sortedD
  have hsymm : ∀ {x y : Task}, ¬ sortKeyTie f x y → ¬ sortKeyTie f y x :=
    fun h hc => h ⟨hc.2, hc.1⟩
  have tfA :
      (List.insertionSort (sortKeyLe f) (applyFilters filters store)).Pairwise
        (fun a b => ¬ sortKeyTie f a b) :=
    (List.Perm.pairwise_iff hsymm permA).mpr htf
  have tfR :
      ((List.insertionSort (sortKeyGe f) (applyFilters filters store)).reverse).Pairwise
        (fun a b => ¬ sortKeyTie f a b) :=
    (List.Perm.pairwise_iff hsymm permRev).mpr htf
  have strictA :
      (List.insertionSort (sortKeyLe f) (applyFilters filters store)).Pairwise
        (sortKeyLt f) :=
    (List.Pairwise.and sortedA tfA).imp
      (fun h => ⟨h.1, fun hba => h.2 ⟨h.1, hba⟩⟩)
  have strictR :
      ((List.insertionSort (sortKeyGe f) (applyFilters filters store)).reverse).Pairwise
        (sortKeyLt f) :=
    (List.Pairwise.and sortedRev tfR).imp
      (fun h => ⟨h.1, fun hba => h.2 ⟨h.1, hba⟩⟩)
  have hperm :
      List.Perm (List.insertionSort (sortKeyLe f) (applyFilters filters store))
        ((List.insertionSort (sortKeyGe f) (applyFilters filters store)).reverse) :=
    permA.trans permRev.symm
  haveI : IsAntisymm Task (sortKeyLt f) := ⟨fun _ _ hab hba => absurd hba.1 hab.2⟩
  exact List.eq_of_perm_of_sorted hperm strictA strictR

/-- C7, witness for the amended claim: a tie-free two-task store sorted
by priority. -/
theorem asc_reverse_desc_of_no_tie_witness :
    getFilteredTasks (ascFilters SortField.priority noSortFilters)
        [sampleTask, highTask]
      = (getFilteredTasks (descFilters SortField.priority noSortFilters)
          [sampleTask, highTask]).reverse :=
  asc_reverse_desc_of_no_tie SortField.priority noSortFilters
    [sampleTask, highTask] (by decide)

/-- C8, counterexample: the search text is interpolated into an ILIKE
pattern, so its `%` acts as a wildcard: searching `"a%b"` matches the
task titled `"axxb"` although `"a%b"` is not a case-insensitive
substring of its title or (empty) description. -/
theorem search_wildcard_counterexample :
    searchMatches "a%b" wildTask = true ∧ ¬ searchMatchesSpec "a%b" wildTask := by
  decide

/-- C8 (amended): for every search string free of the SQL wildcard
characters `%` and `_`, the search clause matches a task exactly when
the string is a case-insensitive substring of its title or of its
description. -/
theorem searchMatches_iff_ciSubstring (search : String) (t : Task)
    (h : ∀ c ∈ search.data, c ≠ '%' ∧ c ≠ '_') :
    searchMatches search t = true ↔ searchMatchesSpec search t := by
  have hplain := jsToLower_plain h
  have e := searchPattern_data search
  show (ilikeMatch ("%" ++ jsToLower search ++ "%") t.title ||
      ilikeMatch ("%" ++ jsToLower search ++ "%") t.description) = true ↔ _
  rw [Bool.or_eq_true]
  unfold ilikeMatch
  rw [e, likeMatch_wrap _ hplain, likeMatch_wrap _ hplain]
  exact Iff.rfl

/-- C8, witness for the amended claim: a wildcard-free search against a
concrete task. -/
theorem searchMatches_iff_ciSubstring_witness :
    searchMatches "alp" sampleTask = true ↔ searchMatchesSpec "alp" sampleTask :=
  searchMatches_iff_ciSubstring "alp" sampleTask (by decide)

/-- C9: when no sort field is given, `getFilteredTasks` returns exactly
the matching tasks (a permutation of the filtered rows) ordered by
`created_at` descending, newest first. -/
theorem default_sort_created_at_desc (filters : TaskFilters) (store : List Task)
    (h : filters.sortBy = none) :
    List.Perm (getFilteredTasks filters store) (applyFilters filters store) ∧
      (getFilteredTasks filters store).Pairwise
        (fun a b => b.created_at ≤ a.created_at) := by
  rw [getFilteredTasks_noSort filters store h]
  exact ⟨List.perm_insertionSort createdDescLe _,
    List.sorted_insertionSort createdDescLe _⟩

/-- C9, witness at a concrete filter set and store. -/
theorem default_sort_created_at_desc_witness :
    List.Perm (getFilteredTasks noSortFilters [sampleTask, bravoTask])
        (applyFilters noSortFilters [sampleTask, bravoTask]) ∧
      (getFilteredTasks noSortFilters [sampleTask, bravoTask]).Pairwise
        (fun a b => b.created_at ≤ a.created_at) :=
  default_sort_created_at_desc noSortFilters [sampleTask, bravoTask] rfl

/-- C10: on unparseable input, `JSON.parse` throws before any store
operation: the collection is left fully unchanged (the parse error is
atomic) — but the catch block rethrows via `handleSupabaseError`, so the
function propagates the exception instead of resolving `false` as its
own comment and dead `return false` intend. -/
theorem import_parse_error_throws_store_unchanged :
    ∀ (e : String) (store : List Task),
      importTasksFromJSON (Except.error e) store
        = (store,
            Except.error
              (if e = "" then "An error occurred with the database" else e)) :=
  fun _ _ => rfl

end PLCrud
